import Mathlib

/-!
A verification development for the command interpreter and transaction-synthesis
pipeline of matrix-firefly-bot (`src/main.rs`).

Strings are modelled shallowly as lists of characters (`Str`), so that Rust's
byte-indexed slicing operations (`find`, `split_once`, `[i..]`) — which are only
ever applied at single-byte ASCII characters in this program — become ordinary
list operations.  Rust `f64` values are modelled by `F64`, which records the
exact decimal value of a parsed literal (IEEE-754 rounding and overflow to
infinity are not modelled; the special values `inf`/`infinity`/`nan` accepted by
Rust's `f64::from_str` are modelled exactly).
-/

abbrev Str := List Char

instance {ε α : Type} [DecidableEq ε] [DecidableEq α] : DecidableEq (Except ε α)
  | .ok a, .ok b =>
    if h : a = b then .isTrue (by rw [h]) else .isFalse (fun he => h (by injection he))
  | .ok _, .error _ => .isFalse (fun he => Except.noConfusion he)
  | .error _, .ok _ => .isFalse (fun he => Except.noConfusion he)
  | .error a, .error b =>
    if h : a = b then .isTrue (by rw [h]) else .isFalse (fun he => h (by injection he))

/-- Unicode `White_Space`, the predicate behind Rust's `char::is_whitespace`,
used by `str::trim`. -/
def isRustWhitespace (c : Char) : Bool :=
  decide ((0x09 ≤ c.toNat ∧ c.toNat ≤ 0x0D) ∨ c.toNat = 0x20 ∨ c.toNat = 0x85 ∨
    c.toNat = 0xA0 ∨ c.toNat = 0x1680 ∨ (0x2000 ≤ c.toNat ∧ c.toNat ≤ 0x200A) ∨
    c.toNat = 0x2028 ∨ c.toNat = 0x2029 ∨ c.toNat = 0x202F ∨ c.toNat = 0x205F ∨
    c.toNat = 0x3000)

/-- Rust `str::trim_start`. -/
def rustTrimStart (l : Str) : Str := l.dropWhile isRustWhitespace

/-- Rust `str::trim_end`. -/
def rustTrimEnd (l : Str) : Str := (l.reverse.dropWhile isRustWhitespace).reverse

/-- Rust `str::trim`: whitespace stripped from both ends. -/
def rustTrim (l : Str) : Str := rustTrimEnd (rustTrimStart l)

/-- Rust `str::split_once(c)`: the text before and after the first occurrence
of `c`, or `none` when `c` does not occur. -/
def splitOnceChar (c : Char) : Str → Option (Str × Str)
  | [] => none
  | x :: xs =>
    if x = c then some ([], xs)
    else (splitOnceChar c xs).map (fun p => (x :: p.1, p.2))

/-- Rust `str::split(c)`: the list of segments between occurrences of `c`
(always non-empty; an empty string yields one empty segment). -/
def splitChar (c : Char) : Str → List Str
  | [] => [[]]
  | x :: xs =>
    if x = c then [] :: splitChar c xs
    else
      match splitChar c xs with
      | [] => [[x]]
      | s :: rest => (x :: s) :: rest

/-- Model of a Rust `f64` as produced by `f64::from_str`: NaN, signed infinity,
or a finite value `num * 10 ^ exp10` recorded exactly (IEEE-754 rounding and
overflow of huge exponents are not modelled; no claim depends on them). -/
inductive F64 where
  | nan : F64
  | inf (neg : Bool) : F64
  | finite (num : ℤ) (exp10 : ℤ) : F64
deriving DecidableEq

def F64.isFinite : F64 → Bool
  | .finite _ _ => true
  | _ => false

/-- ASCII lower-casing, as in Rust's `eq_ignore_ascii_case` used by
`f64::from_str` for the special values. -/
def toLowerAscii (c : Char) : Char :=
  if 'A' ≤ c ∧ c ≤ 'Z' then Char.ofNat (c.toNat + 32) else c

def isAsciiDigit (c : Char) : Bool := decide ('0' ≤ c ∧ c ≤ '9')

def digitsToNat (l : Str) : Nat := l.foldl (fun acc c => acc * 10 + (c.toNat - 48)) 0

/-- An optional leading `+`/`-`; returns (is-negative, remainder). -/
def parseSign : Str → Bool × Str
  | '+' :: xs => (false, xs)
  | '-' :: xs => (true, xs)
  | xs => (false, xs)

/-- The exact decimal value `±(ip.fp) * 10^e` of a parsed literal. -/
def mkF64 (neg : Bool) (ip fp : Str) (e : ℤ) : F64 :=
  let m : ℤ := (digitsToNat ip : ℤ) * 10 ^ fp.length + (digitsToNat fp : ℤ)
  .finite (if neg then -m else m) (e - fp.length)

/-- The optional exponent part `('e'|'E') Sign? Count` of Rust's float grammar;
anything left over is a parse failure. -/
def parseExpPart (neg : Bool) (ip fp : Str) : Str → Option F64
  | [] => some (mkF64 neg ip fp 0)
  | e :: r1 =>
    if e = 'e' ∨ e = 'E' then
      let s := parseSign r1
      let ds := s.2.takeWhile isAsciiDigit
      let r3 := s.2.dropWhile isAsciiDigit
      if ds = [] ∨ r3 ≠ [] then none
      else some (mkF64 neg ip fp (if s.1 then -(digitsToNat ds : ℤ) else (digitsToNat ds : ℤ)))
    else none

/-- The `Number` production of Rust's `f64::from_str` grammar:
digits, an optional `.` with optional further digits (at least one digit in
total), then an optional exponent. -/
def parseNumber (neg : Bool) (r : Str) : Option F64 :=
  let ip := r.takeWhile isAsciiDigit
  let r1 := r.dropWhile isAsciiDigit
  match r1 with
  | '.' :: r2 =>
    let fp := r2.takeWhile isAsciiDigit
    let r3 := r2.dropWhile isAsciiDigit
    if ip = [] ∧ fp = [] then none else parseExpPart neg ip fp r3
  | _ => if ip = [] then none else parseExpPart neg ip [] r1

/-- Rust's `f64::from_str`:
`Sign? ('inf' | 'infinity' | 'nan' | Number)`, the special words matched
case-insensitively.  Note that `inf`, `infinity` and `nan` are accepted, so a
successful parse is not necessarily a finite number. -/
def rustParseF64 (s : Str) : Option F64 :=
  let sg := parseSign s
  let low := sg.2.map toLowerAscii
  if low = ("inf").data then some (.inf sg.1)
  else if low = ("infinity").data then some (.inf sg.1)
  else if low = ("nan").data then some .nan
  else parseNumber sg.1 sg.2

/-- `AddArgs` of `src/main.rs` (the parsed `!add` request). -/
structure AddArgs where
  category : Str
  amount : F64
  note : Option Str
  tags : List Str
deriving DecidableEq

/-- The errors `Cmd::parse` / `AddArgs::parse` produce (in the source these are
`anyhow` errors; the constructors here carry the dynamic part of each message,
and `Err.message` renders the exact user-facing string). -/
inductive Err where
  | invalidArgs : Err
  | invalidAmount (token : Str) : Err
  | unknownCommand (verb : Str) : Err
deriving DecidableEq

/-- The user-facing message text of each error, exactly as formatted in
`src/main.rs` (`INVALID_ARGS`, `ADD_USAGE`, and the two `anyhow!` templates). -/
def Err.message : Err → Str
  | .invalidArgs => ("Invalid arguments. Usage: !add <Category>: <Amount> [Note] [#Tag...]").data
  | .invalidAmount t => ("Invalid amount: ").data ++ t
  | .unknownCommand v => ("Unknown command: ").data ++ v

/-- The `Cmd` variant type of `src/main.rs`. -/
inductive Cmd where
  | ping : Cmd
  | help : Cmd
  | categories : Cmd
  | add (args : AddArgs) : Cmd
deriving DecidableEq

/-- Lines 392–406 of `src/main.rs`: from the text right of the `:`, split off
the amount token at the first space of the trimmed text (falling back to the
whole untrimmed text when there is no space), and keep the trimmed remainder
as the free-text tail only when it is non-empty. -/
def splitAmountTail (rest : Str) : Str × Option Str :=
  match splitOnceChar ' ' (rustTrim rest) with
  | some p =>
    let trimmed := rustTrim p.2
    (p.1, if trimmed = [] then none else some trimmed)
  | none => (rest, none)

/-- Lines 408–429 of `src/main.rs`: note and tags from the free-text tail.
The tail is split on `#`, every segment trimmed, empty segments dropped; when
the tail does not start with `#` the first kept segment is the note and the
rest are the tags, otherwise there is no note and all kept segments are tags.
(The source's `text_parts.unwrap()` in the note branch cannot panic because a
present tail is non-empty; `drop 1` models the `&parts[1..]` slice.) -/
def noteTags (tail : Option Str) : Option Str × List Str :=
  match tail with
  | none => (none, [])
  | some t =>
    let parts := ((splitChar '#' t).map rustTrim).filter (fun p => !p.isEmpty)
    if t.head? = some '#' then (none, parts) else (parts.head?, parts.drop 1)

/-- Lines 431–434 of `src/main.rs`: trim the amount token, then strip one
leading `$` if present. -/
def amountStrOf (amount : Str) : Str :=
  let t := rustTrim amount
  if t.head? = some '$' then t.drop 1 else t

/-- `AddArgs::parse` (lines 390–455 of `src/main.rs`). -/
def addArgsParse (args : Str) : Except Err AddArgs :=
  match splitOnceChar ':' args with
  | none => .error .invalidArgs
  | some (category, rest) =>
    let ar := splitAmountTail rest
    let nt := noteTags ar.2
    let amountStr := amountStrOf ar.1
    let category1 := rustTrim category
    if category1 = [] ∨ amountStr = [] then .error .invalidArgs
    else
      match rustParseF64 amountStr with
      | none => .error (.invalidAmount amountStr)
      | some v => .ok ⟨category1, v, nt.1, nt.2⟩

/-- Lines 371–377 of `src/main.rs`: split the input at the first space into the
command verb and the argument remainder (the whole input and `""` when there is
no space). -/
def cmdSplit (input : Str) : Str × Str :=
  match splitOnceChar ' ' input with
  | none => (input, [])
  | some p => p

/-- `Cmd::parse` (lines 369–387 of `src/main.rs`). -/
def cmdParse (input : Str) : Except Err Cmd :=
  let v := cmdSplit input
  if v.1 = ("!help").data then .ok .help
  else if v.1 = ("!ping").data then .ok .ping
  else if v.1 = ("!categories").data then .ok .categories
  else if v.1 = ("!add").data then
    match addArgsParse v.2 with
    | .ok a => .ok (.add a)
    | .error e => .error e
  else .error (.unknownCommand v.1)

/-- The `Transaction` record of `src/main.rs` (the `date` is carried opaquely
as an integer timestamp; the chrono conversion is external I/O). -/
structure Transaction where
  transaction_type : Str
  date : ℤ
  amount : F64
  description : Str
  category_name : Str
  source_id : ℤ
  destination_name : Str
  tags : List Str
  notes : Option Str
deriving DecidableEq

def FIREFLY_GENERAL_EXPENSE : Str := ("General expense").data

/-- `Transaction::withdrawal` (lines 102–127 of `src/main.rs`): the sender is
pushed onto the end of the tag list, the description is
`"<category> by <person>"`, and the kind is fixed to `"withdrawal"`. -/
def Transaction.withdrawal (category : Str) (amount : F64) (date : ℤ) (source_id : ℤ)
    (destination_name : Str) (person : Str) (notes : Option Str) (tags : List Str) :
    Transaction :=
  { transaction_type := ("withdrawal").data
    date := date
    amount := amount
    description := category ++ (" by ").data ++ person
    category_name := category
    source_id := source_id
    destination_name := destination_name
    tags := tags ++ [person]
    notes := notes }

/-- The configuration record of `src/main.rs` (only the source account id is
used by the synthesis pipeline). -/
structure Config where
  matrix_homeserver_url : Str
  matrix_username : Str
  matrix_password : Str
  matrix_room_id : Str
  firefly_url : Str
  firefly_api_key : Str
  firefly_source_account_id : ℤ

/-- Lines 300–309 of `src/main.rs` (`add_expense`): the transaction built for a
parsed request, with the configured source account and the fixed destination. -/
def buildTransaction (cfg : Config) (category : Str) (amount : F64) (username : Str)
    (timestamp : ℤ) (note : Option Str) (tags : List Str) : Transaction :=
  Transaction.withdrawal category amount timestamp cfg.firefly_source_account_id
    FIREFLY_GENERAL_EXPENSE username note tags

/-- An HTTP response from the ledger backend, as seen by `add_expense`: the
status code and the response body text (the body placeholder used when the body
cannot be read is external I/O and is absorbed into `body`). -/
structure HttpResponse where
  status : Nat
  body : Str
deriving DecidableEq

/-- The failure detail `add_expense` logs: a non-200 status with the body, or
the transport error text. -/
inductive AddFailure where
  | badStatus (status : Nat) (body : Str) : AddFailure
  | transport (msg : Str) : AddFailure
deriving DecidableEq

/-- Lines 325–342 of `src/main.rs`: the create-transaction call succeeds
exactly on HTTP 200; any other status keeps the status and body, a transport
failure keeps the error text. -/
def addExpenseResult (resp : Except Str HttpResponse) : Except AddFailure Unit :=
  match resp with
  | .ok r => if r.status ≠ 200 then .error (.badStatus r.status r.body) else .ok ()
  | .error e => .error (.transport e)

/-- An observable chat-side output: a plain-text reply, or a reaction attached
to a prior event id. -/
inductive ChatAction where
  | reply (text : Str) : ChatAction
  | reaction (emoji : Str) (eventId : Str) : ChatAction
deriving DecidableEq

/-- Lines 276–283 of `src/main.rs` (the `Cmd::Add` branch): on success react ✅
to the triggering event, on failure log the detail and react ❌; no reply text
is posted on either path.  The second component is what goes to the log. -/
def handleAddOutcome (eventId : Str) (outcome : Except AddFailure Unit) :
    ChatAction × Option AddFailure :=
  match outcome with
  | .ok _ => (.reaction (("✅").data) eventId, none)
  | .error e => (.reaction (("❌").data) eventId, some e)

/-- `Attributes` of `src/main.rs`. -/
structure Attributes where
  name : Str
deriving DecidableEq

/-- `Category` of `src/main.rs`. -/
structure Category where
  id : Str
  attributes : Attributes
deriving DecidableEq

/-- Lines 361–365 of `src/main.rs` (`list_categories`): the `name` attribute of
every entry, in response order. -/
def listCategoriesNames (data : List Category) : List Str :=
  data.map (fun c => c.attributes.name)

/-- Rust `Vec::join(sep)`. -/
def joinSep (sep : Str) : List Str → Str
  | [] => []
  | [x] => x
  | x :: y :: xs => x ++ sep ++ joinSep sep (y :: xs)

/-- Lines 250–257 of `src/main.rs`: the `!categories` reply text — the header,
then, when the list is non-empty, `"\n - "` and the names joined by `"\n - "`. -/
def categoriesReply (cats : List Str) : Str :=
  ("Categories:").data ++
    (if cats = [] then [] else ("\n - ").data ++ joinSep (("\n - ").data) cats)

/-- Lines 249–265 of `src/main.rs` (the `Cmd::Categories` branch): reply with
the formatted list on success, with the fixed generic sentence on failure. -/
def handleCategoriesOutcome (res : Except Str (List Str)) : ChatAction :=
  match res with
  | .ok cats => .reply (categoriesReply cats)
  | .error _ => .reply (("Failed to list categories").data)

/-- Spec-side (claim C4 wording): the verb is the text up to the first space —
the whole input when there is no space. -/
def verbOf (input : Str) : Str := input.takeWhile (fun c => c != ' ')

/-- Spec-side (claim C4 wording): the argument remainder after the first space —
empty when there is no space. -/
def argsOf (input : Str) : Str := (input.dropWhile (fun c => c != ' ')).drop 1

/-- Spec-side restatement of the command grammar from the claim's words:
split into verb and args, match the verb against the fixed vocabulary, fail
with an unknown-command error naming the verb otherwise. -/
def cmdParseSpec (input : Str) : Except Err Cmd :=
  let verb := verbOf input
  if verb = ("!help").data then .ok .help
  else if verb = ("!ping").data then .ok .ping
  else if verb = ("!categories").data then .ok .categories
  else if verb = ("!add").data then
    match addArgsParse (argsOf input) with
    | .ok a => .ok (.add a)
    | .error e => .error e
  else .error (.unknownCommand verb)

/-- Spec-side (claim C1 wording): the amount token — the text of `rest` up to
the first space after trimming `rest`, itself trimmed. -/
def specAmountToken (rest : Str) : Str :=
  rustTrim ((rustTrim rest).takeWhile (fun c => c != ' '))

/-- Spec-side (claim C1 wording): strip one optional leading `$`. -/
def specStripDollar (t : Str) : Str :=
  if t.head? = some '$' then t.drop 1 else t

/-- Spec-side restatement of the tail grammar from claim C2's words: split the
tail on `#`; if the tail does not start with `#` the first segment (trimmed) is
the note and the remaining trimmed non-empty segments are the tags in order;
if it starts with `#` there is no note and the tags are all trimmed non-empty
segments; an absent tail yields no note and no tags (the parser never produces
an empty present tail). -/
def specNoteTags (tail : Option Str) : Option Str × List Str :=
  match tail with
  | none => (none, [])
  | some t =>
    let segs := splitChar '#' t
    if t.head? = some '#' then
      (none, (segs.map rustTrim).filter (fun p => !p.isEmpty))
    else
      ((segs.head?).map rustTrim,
        ((segs.drop 1).map rustTrim).filter (fun p => !p.isEmpty))

/-- Spec-side (claim C7 wording): the header followed by one bulleted line per
category name, in order. -/
def specCategoriesReply (cats : List Str) : Str :=
  ("Categories:").data ++ (cats.map (fun c => ("\n - ").data ++ c)).flatten

theorem dropWhile_dropWhile (p : Char → Bool) (l : Str) :
    (l.dropWhile p).dropWhile p = l.dropWhile p := by
  induction l with
  | nil => rfl
  | cons x xs ih =>
    by_cases h : p x
    · simp [List.dropWhile_cons, h, ih]
    · simp [List.dropWhile_cons, h]

theorem dropWhile_head_not (p : Char → Bool) (l : Str) (c : Char) (r : Str)
    (h : l.dropWhile p = c :: r) : p c = false := by
  induction l with
  | nil => simp at h
  | cons x xs ih =>
    rw [List.dropWhile_cons] at h
    by_cases hp : p x
    · rw [if_pos hp] at h; exact ih h
    · rw [if_neg hp] at h
      injection h with h1 h2
      subst h1
      simpa using hp

theorem rustTrimStart_cons_of_not (c : Char) (s : Str) (h : isRustWhitespace c = false) :
    rustTrimStart (c :: s) = c :: s := by
  simp [rustTrimStart, List.dropWhile_cons, h]

theorem rustTrimStart_eq_self (l : Str)
    (h : ∀ c, l.head? = some c → isRustWhitespace c = false) : rustTrimStart l = l := by
  cases l with
  | nil => rfl
  | cons c s => exact rustTrimStart_cons_of_not c s (h c rfl)

theorem rustTrimEnd_append (l : Str) : ∃ t, l = rustTrimEnd l ++ t := by
  refine ⟨(l.reverse.takeWhile isRustWhitespace).reverse, ?_⟩
  conv_lhs => rw [← List.reverse_reverse l,
    ← List.takeWhile_append_dropWhile (p := isRustWhitespace) (l := l.reverse)]
  rw [List.reverse_append]
  rfl

theorem rustTrimEnd_eq_nil_iff (l : Str) :
    rustTrimEnd l = [] ↔ ∀ c ∈ l, isRustWhitespace c = true := by
  simp [rustTrimEnd, List.dropWhile_eq_nil_iff]

theorem rustTrimEnd_idem (l : Str) : rustTrimEnd (rustTrimEnd l) = rustTrimEnd l := by
  simp [rustTrimEnd, List.reverse_reverse, dropWhile_dropWhile]

theorem head?_rustTrimEnd (l : Str) (c : Char) (h : (rustTrimEnd l).head? = some c) :
    l.head? = some c := by
  obtain ⟨t, ht⟩ := rustTrimEnd_append l
  rw [ht, List.head?_append_of_ne_nil]
  · exact h
  · intro hnil
    rw [hnil] at h
    simp at h

theorem head?_rustTrim_not_ws (l : Str) (c : Char) (h : (rustTrim l).head? = some c) :
    isRustWhitespace c = false := by
  unfold rustTrim at h
  have hh := head?_rustTrimEnd _ _ h
  cases hA : rustTrimStart l with
  | nil => rw [hA] at hh; simp at hh
  | cons a as =>
    rw [hA] at hh
    simp at hh
    exact hh ▸ dropWhile_head_not isRustWhitespace l a as hA

theorem rustTrim_idem (l : Str) : rustTrim (rustTrim l) = rustTrim l := by
  show rustTrimEnd (rustTrimStart (rustTrim l)) = rustTrim l
  have h1 : rustTrimStart (rustTrim l) = rustTrim l := by
    apply rustTrimStart_eq_self
    intro c hc
    exact head?_rustTrim_not_ws l c hc
  rw [h1]
  show rustTrimEnd (rustTrimEnd (rustTrimStart l)) = rustTrim l
  rw [rustTrimEnd_idem]
  rfl

theorem rustTrim_cons_ne_nil (c : Char) (s : Str) (h : isRustWhitespace c = false) :
    rustTrim (c :: s) ≠ [] := by
  show rustTrimEnd (rustTrimStart (c :: s)) ≠ []
  rw [rustTrimStart_cons_of_not c s h]
  intro hnil
  have := (rustTrimEnd_eq_nil_iff (c :: s)).mp hnil c (by simp)
  rw [h] at this
  exact Bool.false_ne_true this

theorem splitChar_ne_nil (c : Char) (l : Str) : splitChar c l ≠ [] := by
  induction l with
  | nil => simp [splitChar]
  | cons x xs ih =>
    by_cases h : x = c
    · simp [splitChar, h]
    · cases hs : splitChar c xs with
      | nil => exact absurd hs ih
      | cons s rest => simp [splitChar, h, hs]

theorem splitOnceChar_eq (c : Char) (l : Str) :
    splitOnceChar c l =
      if c ∈ l then
        some (l.takeWhile (fun x => x != c), (l.dropWhile (fun x => x != c)).drop 1)
      else none := by
  induction l with
  | nil => simp [splitOnceChar]
  | cons x xs ih =>
    by_cases hx : x = c
    · subst hx
      simp [splitOnceChar, List.takeWhile_cons, List.dropWhile_cons]
    · simp only [splitOnceChar, if_neg hx, ih]
      by_cases hm : c ∈ xs
      · have hmem : c ∈ x :: xs := List.mem_cons_of_mem x hm
        rw [if_pos hm, if_pos hmem]
        simp [List.takeWhile_cons, List.dropWhile_cons, hx, Ne.symm hx]
      · have hmem : c ∉ x :: xs := by simp [hm, Ne.symm hx]
        rw [if_neg hm, if_neg hmem]
        simp

theorem cmdSplit_eq (input : Str) : cmdSplit input = (verbOf input, argsOf input) := by
  unfold cmdSplit verbOf argsOf
  rw [splitOnceChar_eq]
  by_cases h : ' ' ∈ input
  · simp [h]
  · simp only [if_neg h]
    have h1 : input.takeWhile (fun c => c != ' ') = input :=
      List.takeWhile_eq_self_iff.mpr (fun x hx => by
        simp only [bne_iff_ne, ne_eq]
        intro hsp
        exact h (hsp ▸ hx))
    have h2 : input.dropWhile (fun c => c != ' ') = [] :=
      List.dropWhile_eq_nil_iff.mpr (fun x hx => by
        simp only [bne_iff_ne, ne_eq]
        intro hsp
        exact h (hsp ▸ hx))
    rw [h1, h2]
    rfl

theorem rustTrim_splitAmountTail_fst (rest : Str) :
    rustTrim (splitAmountTail rest).1 = specAmountToken rest := by
  unfold splitAmountTail specAmountToken
  rw [splitOnceChar_eq]
  by_cases h : ' ' ∈ rustTrim rest
  · simp [h]
  · simp only [if_neg h]
    have h1 : (rustTrim rest).takeWhile (fun c => c != ' ') = rustTrim rest :=
      List.takeWhile_eq_self_iff.mpr (fun x hx => by
        simp only [bne_iff_ne, ne_eq]
        intro hsp
        exact h (hsp ▸ hx))
    rw [h1, rustTrim_idem]

theorem amountStrOf_eq (a : Str) : amountStrOf a = specStripDollar (rustTrim a) := rfl

theorem noteTags_eq_specNoteTags (t : Str) (hne : t ≠ []) (hfix : rustTrim t = t) :
    noteTags (some t) = specNoteTags (some t) := by
  cases t with
  | nil => exact absurd rfl hne
  | cons c r =>
    have hcw : isRustWhitespace c = false := by
      apply head?_rustTrim_not_ws (c :: r) c
      rw [hfix]
      rfl
    by_cases hc : c = '#'
    · subst hc
      simp [noteTags, specNoteTags]
    · obtain ⟨s, rest, hs⟩ : ∃ s rest, splitChar '#' r = s :: rest := by
        cases hsp : splitChar '#' r with
        | nil => exact absurd hsp (splitChar_ne_nil _ _)
        | cons a b => exact ⟨a, b, rfl⟩
      have hsegs : splitChar '#' (c :: r) = (c :: s) :: rest := by
        simp [splitChar, hc, hs]
      have htrim_ne : rustTrim (c :: s) ≠ [] := rustTrim_cons_ne_nil c s hcw
      simp [noteTags, specNoteTags, hsegs, hc, List.filter_cons, htrim_ne]

theorem addArgsParse_ok_fields (args cat rest : Str) (a : AddArgs)
    (hsplit : splitOnceChar ':' args = some (cat, rest))
    (hok : addArgsParse args = .ok a) :
    a.category = rustTrim cat ∧
    a.note = (noteTags (splitAmountTail rest).2).1 ∧
    a.tags = (noteTags (splitAmountTail rest).2).2 ∧
    rustParseF64 (amountStrOf (splitAmountTail rest).1) = some a.amount := by
  simp only [addArgsParse, hsplit] at hok
  by_cases hcond : rustTrim cat = [] ∨ amountStrOf (splitAmountTail rest).1 = []
  · rw [if_pos hcond] at hok
    exact absurd hok (by simp)
  · rw [if_neg hcond] at hok
    cases hp : rustParseF64 (amountStrOf (splitAmountTail rest).1) with
    | none =>
      rw [hp] at hok
      exact absurd hok (by simp)
    | some v =>
      rw [hp] at hok
      injection hok with h
      subst h
      exact ⟨rfl, rfl, rfl, rfl⟩

theorem splitAmountTail_tail_shape (rest t : Str) (h : (splitAmountTail rest).2 = some t) :
    t ≠ [] ∧ rustTrim t = t := by
  unfold splitAmountTail at h
  cases hsp : splitOnceChar ' ' (rustTrim rest) with
  | none =>
    rw [hsp] at h
    simp at h
  | some p =>
    rw [hsp] at h
    simp only at h
    by_cases hnil : rustTrim p.2 = []
    · rw [if_pos hnil] at h
      simp at h
    · rw [if_neg hnil] at h
      injection h with h
      subst h
      exact ⟨hnil, rustTrim_idem p.2⟩

theorem joinSep_bullets (sep : Str) (x : Str) (xs : List Str) :
    sep ++ joinSep sep (x :: xs) = ((x :: xs).map (fun c => sep ++ c)).flatten := by
  induction xs generalizing x with
  | nil => simp [joinSep]
  | cons y ys ih =>
    simp only [joinSep, List.map_cons, List.flatten_cons] at *
    rw [← ih y]
    simp [List.append_assoc]

/-- Claim C1, counterexample, in two parts matching the claim's two falsities.
First, the claim requires that parsing succeeds only when the amount token
parses as a *finite* floating-point number, but Rust's `f64::from_str` —
applied with no finiteness check in `AddArgs::parse` — also accepts `inf`, so
`!add c: inf` parses successfully with an infinite amount.  Second, the
claim's amount token, "the text of `rest` up to the first space, after
trimming `rest`", is not re-trimmed: on `!add c: 1.0<TAB> x` that token is
`1.0<TAB>`, which does not parse under any floating-point reading, so the
claim predicts failure — yet the code trims the token once more
(`amount.trim()`, line 431) before the `$`-strip and parse, and succeeds with
amount `1.0` and note `x`. -/
theorem c1_counterexample :
    (addArgsParse (("c: inf").data) =
        .ok ⟨("c").data, F64.inf false, none, []⟩ ∧
      F64.isFinite (F64.inf false) = false) ∧
    ((rustTrim ((" 1.0\t x").data)).takeWhile (fun c => c != ' ') = ("1.0\t").data ∧
      rustParseF64 (specStripDollar
        ((rustTrim ((" 1.0\t x").data)).takeWhile (fun c => c != ' '))) = none ∧
      addArgsParse (("c: 1.0\t x").data) =
        .ok ⟨("c").data, F64.finite 10 (-1), some (("x").data), []⟩) := by decide

/-- Claim C1 (amended, changing exactly what the two-part counterexample
forces): for every `!add` input whose argument text splits at a `:` and whose
category is non-empty after trimming, the amount token is the text of `rest`
up to the first space after trimming `rest`, *trimmed again* (forced by the
second counterexample part); an optional single leading `$` is stripped from
it and does not change the numeric value; parsing succeeds only if the
remaining text is non-empty and parses under Rust's floating-point grammar,
which also accepts the non-finite forms `inf`/`infinity`/`nan`, so no
finiteness is guaranteed (forced by the first counterexample part); an empty
remainder fails with the invalid-arguments error and a non-parsing token fails
with an `Invalid amount: <token>` error rather than a crash. -/
theorem c1_amount_token (args cat rest : Str)
    (hsplit : splitOnceChar ':' args = some (cat, rest))
    (hcat : rustTrim cat ≠ []) :
    amountStrOf (splitAmountTail rest).1 = specStripDollar (specAmountToken rest) ∧
    ((specAmountToken rest).head? = some '$' →
      specStripDollar (specAmountToken rest) = (specAmountToken rest).drop 1) ∧
    (specStripDollar (specAmountToken rest) = [] →
      addArgsParse args = .error .invalidArgs) ∧
    (specStripDollar (specAmountToken rest) ≠ [] →
      rustParseF64 (specStripDollar (specAmountToken rest)) = none →
      addArgsParse args = .error
        (.invalidAmount (specStripDollar (specAmountToken rest)))) ∧
    (∀ v, rustParseF64 (specStripDollar (specAmountToken rest)) = some v →
      ∃ a, addArgsParse args = .ok a ∧ a.amount = v) := by
  have htok : amountStrOf (splitAmountTail rest).1 =
      specStripDollar (specAmountToken rest) := by
    rw [amountStrOf_eq, rustTrim_splitAmountTail_fst]
  refine ⟨htok, ?_, ?_, ?_, ?_⟩
  · intro hd
    unfold specStripDollar
    rw [if_pos hd]
  · intro hnil
    simp only [addArgsParse, hsplit]
    rw [if_pos (Or.inr (htok.trans hnil))]
  · intro hne hnone
    simp only [addArgsParse, hsplit]
    rw [if_neg (by
      rintro (h | h)
      · exact hcat h
      · exact hne (htok.symm.trans h))]
    rw [htok, hnone]
  · intro v hv
    refine ⟨⟨rustTrim cat, v, (noteTags (splitAmountTail rest).2).1,
      (noteTags (splitAmountTail rest).2).2⟩, ?_, rfl⟩
    simp only [addArgsParse, hsplit]
    rw [if_neg (by
      rintro (h | h)
      · exact hcat h
      · rw [← htok, h] at hv
        rw [show rustParseF64 ([] : Str) = none from rfl] at hv
        exact Option.noConfusion hv)]
    rw [htok, hv]

/-- Claim C1, witness: on `c: 2x` the token is `2x`, which does not parse, and
the parser reports the `Invalid amount` error carrying it; on `c: $2` the `$`
is stripped and the amount parses to the same value `2` as without the `$`. -/
theorem c1_amount_token_witness :
    addArgsParse (("c: 2x").data) = .error (.invalidAmount (("2x").data)) ∧
    (∃ a, addArgsParse (("c: $2").data) = .ok a ∧ a.amount = F64.finite 2 0) ∧
    (∃ a, addArgsParse (("c: 2").data) = .ok a ∧ a.amount = F64.finite 2 0) := by
  refine ⟨?_, ?_, ?_⟩
  · exact (c1_amount_token (("c: 2x").data) (("c").data) ((" 2x").data)
      (by decide) (by decide)).2.2.2.1 (by decide) (by decide)
  · exact (c1_amount_token (("c: $2").data) (("c").data) ((" $2").data)
      (by decide) (by decide)).2.2.2.2 (F64.finite 2 0) (by decide)
  · exact (c1_amount_token (("c: 2").data) (("c").data) ((" 2").data)
      (by decide) (by decide)).2.2.2.2 (F64.finite 2 0) (by decide)

/-- Claim C2: splitting the free-text tail on `#`, if the tail does not start
with `#` the first trimmed segment is the note and the remaining trimmed
non-empty segments are the tags in order; if it starts with `#` there is no
note and the tags are all trimmed non-empty segments in order; an absent tail
yields no note and no tags.  The first part relates the parser's computation
to the claim-side description for every possible present tail (the last part
shows every present tail is non-empty and already trimmed); the third part
ties the parser's output fields to that tail computation. -/
theorem c2_tail_grammar :
    (∀ t : Str, t ≠ [] → rustTrim t = t →
      noteTags (some t) = specNoteTags (some t)) ∧
    noteTags none = (none, []) ∧
    (∀ args cat rest : Str, ∀ a : AddArgs,
      splitOnceChar ':' args = some (cat, rest) → addArgsParse args = .ok a →
      a.note = (noteTags (splitAmountTail rest).2).1 ∧
      a.tags = (noteTags (splitAmountTail rest).2).2) ∧
    (∀ rest t : Str, (splitAmountTail rest).2 = some t → t ≠ [] ∧ rustTrim t = t) := by
  refine ⟨noteTags_eq_specNoteTags, rfl, ?_, splitAmountTail_tail_shape⟩
  intro args cat rest a hsplit hok
  have h := addArgsParse_ok_fields args cat rest a hsplit hok
  exact ⟨h.2.1, h.2.2.1⟩

/-- Claim C2, witness: concrete instances of each quantified part — a tail
with a note and a tag, and the field correspondence for a full `!add` parse. -/
theorem c2_tail_grammar_witness :
    noteTags (some (("x y #t").data)) = specNoteTags (some (("x y #t").data)) ∧
    (AddArgs.mk (("c").data) (F64.finite 1 0) (some (("x y").data)) [("t").data]).note
      = (noteTags (splitAmountTail ((" 1 x y #t").data)).2).1 ∧
    ((("x y #t").data : Str) ≠ [] ∧ rustTrim (("x y #t").data) = ("x y #t").data) := by
  refine ⟨c2_tail_grammar.1 (("x y #t").data) (by decide) (by decide),
    (c2_tail_grammar.2.2.1 (("c: 1 x y #t").data) (("c").data) ((" 1 x y #t").data)
      (AddArgs.mk (("c").data) (F64.finite 1 0) (some (("x y").data)) [("t").data])
      (by decide) (by decide)).1,
    c2_tail_grammar.2.2.2 ((" 1 x y #t").data) (("x y #t").data) (by decide)⟩

/-- Claim C3: the synthesized transaction always has kind `"withdrawal"`,
description `"<category> by <sender>"`, the request's category, the configured
source account id, the fixed destination constant, the note carried over
unchanged, and the request's tags with the sender appended at the end — even
when the sender already occurs in the tags (no deduplication), as the second
part shows on a duplicate-sender instance along with the spec's round-trip
scenario. -/
theorem c3_synthesizer :
    (∀ (cfg : Config) (category : Str) (amount : F64) (username : Str)
      (timestamp : ℤ) (note : Option Str) (tags : List Str),
      (buildTransaction cfg category amount username timestamp note tags).transaction_type
        = ("withdrawal").data ∧
      (buildTransaction cfg category amount username timestamp note tags).description
        = category ++ (" by ").data ++ username ∧
      (buildTransaction cfg category amount username timestamp note tags).category_name
        = category ∧
      (buildTransaction cfg category amount username timestamp note tags).source_id
        = cfg.firefly_source_account_id ∧
      (buildTransaction cfg category amount username timestamp note tags).destination_name
        = FIREFLY_GENERAL_EXPENSE ∧
      (buildTransaction cfg category amount username timestamp note tags).notes = note ∧
      (buildTransaction cfg category amount username timestamp note tags).amount = amount ∧
      (buildTransaction cfg category amount username timestamp note tags).date = timestamp ∧
      (buildTransaction cfg category amount username timestamp note tags).tags
        = tags ++ [username]) ∧
    (∀ (cfg : Config) (username : Str) (rest : List Str),
      (Transaction.withdrawal (("Food").data) (F64.finite 125 (-1)) 0
          cfg.firefly_source_account_id FIREFLY_GENERAL_EXPENSE username
          (some (("lunch").data)) (username :: rest)).tags
        = username :: rest ++ [username]) ∧
    (∀ cfg : Config,
      (buildTransaction cfg (("Food").data) (F64.finite 125 (-1)) (("alice").data) 0
          (some (("lunch").data)) [("work").data]).tags
        = [("work").data, ("alice").data] ∧
      (buildTransaction cfg (("Food").data) (F64.finite 125 (-1)) (("alice").data) 0
          (some (("lunch").data)) [("work").data]).description
        = ("Food by alice").data ∧
      (buildTransaction cfg (("Food").data) (F64.finite 125 (-1)) (("alice").data) 0
          (some (("lunch").data)) [("work").data]).category_name = ("Food").data) :=
  ⟨fun _ _ _ _ _ _ _ => ⟨rfl, rfl, rfl, rfl, rfl, rfl, rfl, rfl, rfl⟩,
    fun _ _ _ => rfl,
    fun _ => ⟨rfl, rfl, rfl⟩⟩

/-- Claim C4: the parser splits the input at the first space into a verb (the
whole string when there is no space) and an argument remainder (empty when
there is no space), maps the four known verbs to their `Cmd` variants, and
fails with an unknown-command error naming the verb otherwise — stated as
equality with `cmdParseSpec`, the independent restatement of the claim built
from `verbOf`/`argsOf`. -/
theorem c4_command_grammar : ∀ input : Str, cmdParse input = cmdParseSpec input := by
  intro input
  unfold cmdParse cmdParseSpec
  rw [cmdSplit_eq]

/-- Claim C5: the `!add` argument parser fails with the invalid-arguments error
exactly when the argument text contains no `:`, or the category left of the
first `:` trims to empty, or the amount token is empty after trimming and
`$`-stripping; and that error renders to the fixed user-facing usage string. -/
theorem c5_invalid_arguments :
    (∀ args : Str,
      addArgsParse args = .error .invalidArgs ↔
        (':' ∉ args ∨
          rustTrim (args.takeWhile (fun c => c != ':')) = [] ∨
          specStripDollar
            (specAmountToken ((args.dropWhile (fun c => c != ':')).drop 1)) = [])) ∧
    (Err.invalidArgs).message =
      ("Invalid arguments. Usage: !add <Category>: <Amount> [Note] [#Tag...]").data := by
  refine ⟨?_, by decide⟩
  intro args
  by_cases hmem : ':' ∈ args
  · have hsplit : splitOnceChar ':' args =
        some (args.takeWhile (fun x => x != ':'),
          (args.dropWhile (fun x => x != ':')).drop 1) := by
      rw [splitOnceChar_eq, if_pos hmem]
    have htok : amountStrOf
        (splitAmountTail ((args.dropWhile (fun x => x != ':')).drop 1)).1 =
        specStripDollar
          (specAmountToken ((args.dropWhile (fun x => x != ':')).drop 1)) := by
      rw [amountStrOf_eq, rustTrim_splitAmountTail_fst]
    simp only [addArgsParse, hsplit]
    by_cases hcond : rustTrim (args.takeWhile (fun x => x != ':')) = [] ∨
        amountStrOf (splitAmountTail ((args.dropWhile (fun x => x != ':')).drop 1)).1 = []
    · rw [if_pos hcond]
      simp only [true_iff]
      rcases hcond with h | h
      · exact Or.inr (Or.inl h)
      · exact Or.inr (Or.inr (htok.symm.trans h))
    · rw [if_neg hcond]
      push_neg at hcond
      constructor
      · intro h
        exact absurd h (by
          cases hp : rustParseF64 (amountStrOf
              (splitAmountTail ((args.dropWhile (fun x => x != ':')).drop 1)).1) <;>
            simp)
      · rintro (h | h | h)
        · exact absurd hmem h
        · exact absurd h hcond.1
        · exact absurd (htok.trans h) hcond.2
  · have hsplit : splitOnceChar ':' args = none := by
      rw [splitOnceChar_eq, if_neg hmem]
    simp only [addArgsParse, hsplit]
    exact iff_of_true trivial (Or.inl hmem)

/-- Claim C5, witness: a missing `:`, a blank category, and a `$`-only amount
each produce the invalid-arguments error, through the iff at concrete inputs. -/
theorem c5_invalid_arguments_witness :
    addArgsParse (("no colon here").data) = .error .invalidArgs ∧
    addArgsParse ((" : 1").data) = .error .invalidArgs ∧
    addArgsParse (("c: $").data) = .error .invalidArgs := by
  refine ⟨?_, ?_, ?_⟩
  · exact (c5_invalid_arguments.1 (("no colon here").data)).mpr (Or.inl (by decide))
  · exact (c5_invalid_arguments.1 ((" : 1").data)).mpr (Or.inr (Or.inl (by decide)))
  · exact (c5_invalid_arguments.1 (("c: $").data)).mpr (Or.inr (Or.inr (by decide)))

/-- Claim C6: the create-transaction call succeeds exactly when the HTTP status
is 200; any other status is an error carrying the status and body, and a
transport failure is an error carrying its text; on failure the user receives
only the fixed ❌ reaction attached to the triggering event (no reply text is
posted — the failure detail goes only to the log component), and on success
the fixed ✅ reaction is posted instead. -/
theorem c6_add_feedback :
    (∀ r : HttpResponse, addExpenseResult (.ok r) = .ok () ↔ r.status = 200) ∧
    (∀ r : HttpResponse, r.status ≠ 200 →
      addExpenseResult (.ok r) = .error (.badStatus r.status r.body)) ∧
    (∀ e : Str, addExpenseResult (.error e) = .error (.transport e)) ∧
    (∀ eid : Str, handleAddOutcome eid (.ok ()) = (.reaction (("✅").data) eid, none)) ∧
    (∀ (eid : Str) (f : AddFailure),
      handleAddOutcome eid (.error f) = (.reaction (("❌").data) eid, some f)) := by
  refine ⟨?_, ?_, fun _ => rfl, fun _ => rfl, fun _ _ => rfl⟩
  · intro r
    simp only [addExpenseResult]
    by_cases h : r.status = 200
    · rw [if_neg (not_not_intro h)]
      exact iff_of_true rfl h
    · rw [if_pos h]
      exact iff_of_false (by simp) h
  · intro r h
    simp only [addExpenseResult]
    rw [if_pos h]

/-- Claim C6, witness: a 422 response is an error carrying status and body and
yields only the ❌ reaction on the triggering event, with the detail logged. -/
theorem c6_add_feedback_witness :
    addExpenseResult (.ok ⟨422, ("Unprocessable").data⟩) =
      .error (.badStatus 422 (("Unprocessable").data)) ∧
    handleAddOutcome (("event1").data)
        (.error (.badStatus 422 (("Unprocessable").data))) =
      (.reaction (("❌").data) (("event1").data),
        some (.badStatus 422 (("Unprocessable").data))) :=
  ⟨c6_add_feedback.2.1 ⟨422, ("Unprocessable").data⟩ (by decide),
    c6_add_feedback.2.2.2.2 (("event1").data) (.badStatus 422 (("Unprocessable").data))⟩

/-- Claim C7: the `!categories` reply is the header `Categories:` followed by
one bulleted line per category name in backend order (stated as equality with
the claim-side `specCategoriesReply`); an empty list yields exactly
`Categories:`; the handler extracts the `name` of each entry in order and
replies with the formatted text. -/
theorem c7_categories_reply :
    (∀ cats : List Str, categoriesReply cats = specCategoriesReply cats) ∧
    categoriesReply [] = ("Categories:").data ∧
    (∀ data : List Category,
      listCategoriesNames data = data.map (fun c => c.attributes.name)) ∧
    (∀ cats : List Str,
      handleCategoriesOutcome (.ok cats) = .reply (categoriesReply cats)) := by
  refine ⟨?_, rfl, fun _ => rfl, fun _ => rfl⟩
  intro cats
  cases cats with
  | nil => rfl
  | cons x xs =>
    unfold categoriesReply specCategoriesReply
    rw [if_neg (by simp), joinSep_bullets]

/-- Claim C9: for the no-argument verbs, any trailing text after the first
space is ignored rather than rejected — `!ping <anything>`, `!help <anything>`
and `!categories <anything>` parse to the same commands as their bare forms. -/
theorem c9_trailing_text : ∀ s : Str,
    cmdParse (("!ping ").data ++ s) = .ok .ping ∧
    cmdParse (("!help ").data ++ s) = .ok .help ∧
    cmdParse (("!categories ").data ++ s) = .ok .categories ∧
    cmdParse (("!ping").data) = .ok .ping ∧
    cmdParse (("!help").data) = .ok .help ∧
    cmdParse (("!categories").data) = .ok .categories :=
  fun _ => ⟨rfl, rfl, rfl, rfl, rfl, rfl⟩

/-- Claim C10: a tag candidate extends from one `#` to the next `#` or the end
of the tail, so internal whitespace is preserved and only leading/trailing
whitespace is trimmed: the tail `#a b #c` yields tags `["a b", "c"]`, not
`["a", "c"]` and not `["a", "b", "c"]`. -/
theorem c10_tag_spans :
    addArgsParse (("c: 1 #a b #c").data) =
      .ok ⟨("c").data, F64.finite 1 0, none, [("a b").data, ("c").data]⟩ ∧
    ([("a b").data, ("c").data] : List Str) ≠ [("a").data, ("c").data] ∧
    ([("a b").data, ("c").data] : List Str) ≠ [("a").data, ("b").data, ("c").data] := by
  decide

/-- The `test_parse_add` case `"Test: 1.23"` of `src/main.rs`. -/
theorem rustTest_parse_simple : addArgsParse (("Test: 1.23").data) =
    .ok ⟨("Test").data, .finite 123 (-2), none, []⟩ := by decide

/-- The `test_parse_add` case `"multi word cat: $100"` of `src/main.rs`. -/
theorem rustTest_parse_dollar : addArgsParse (("multi word cat: $100").data) =
    .ok ⟨("multi word cat").data, .finite 100 0, none, []⟩ := by decide

/-- The `test_parse_add` case `"cat : 0.25 this is a note"` of `src/main.rs`. -/
theorem rustTest_parse_note : addArgsParse (("cat : 0.25 this is a note").data) =
    .ok ⟨("cat").data, .finite 25 (-2), some (("this is a note").data), []⟩ := by decide

/-- The `test_parse_add` case `"test: 1.25 #tag"` of `src/main.rs`. -/
theorem rustTest_parse_tag : addArgsParse (("test: 1.25 #tag").data) =
    .ok ⟨("test").data, .finite 125 (-2), none, [("tag").data]⟩ := by decide

/-- The `test_parse_add` case `"test: 1 this is a note #one #two #three"`. -/
theorem rustTest_parse_note_tags :
    addArgsParse (("test: 1 this is a note #one #two #three").data) =
    .ok ⟨("test").data, .finite 1 0, some (("this is a note").data),
      [("one").data, ("two").data, ("three").data]⟩ := by decide

/-- The `test_parse_add` whitespace-torture case of `src/main.rs`. -/
theorem rustTest_parse_weird_spacing : addArgsParse
    (("   weird spacing   :   $1.01    this one has  extra   spacing    #one    #  two  ").data) =
    .ok ⟨("weird spacing").data, .finite 101 (-2),
      some (("this one has  extra   spacing").data),
      [("one").data, ("two").data]⟩ := by decide
